import Mathlib

/-!
Verification of the sample-filtering and evaluation-orchestration pipeline of
`scripts/evaluate_humaneval.py` and of the ecosystem validator
`scripts/validate_ecosystem.py`, as a shallow embedding in Lean.

Conventions of the embedding:
* a Python JSON record `{task_id, completion}` is a `Sample`; a record lacking
  the `completion` field carries `none` (`sample.get("completion", "")`
  supplies `""` for it);
* Python exceptions are `Except` errors; `sys.exit(n)` and uncaught exceptions
  are constructors of `MainOutcome`;
* the host probe `shutil.which("firejail")` is a boolean parameter `present`;
* the external evaluation engine (`evaluate_functional_correctness`) is an
  oracle argument `Bool → Bool → Except String Metrics`, keyed by
  (enforce_policy, is_finetuned), an error being an engine fault.
-/

deriving instance DecidableEq for Except

namespace HumanEvalPipeline

/-- Python `str.strip()`: drop leading and trailing whitespace (the ASCII
whitespace characters recognised by `Char.isWhitespace`; exotic Unicode spaces
are out of the model). Structurally recursive so that it evaluates in the
kernel. -/
def pyStrip (s : String) : String :=
  ⟨((s.data.dropWhile Char.isWhitespace).reverse.dropWhile Char.isWhitespace).reverse⟩

/-- One generation sample: the Python dict `{task_id, completion}` read from the
jsonl sample file. `completion = none` models a record without that field. -/
structure Sample where
  task_id : String
  completion : Option String
deriving DecidableEq, Repr

/-- The per-sample verdict of `_filter_bad_samples`: the rejection reason tags
counted in `filtered_reasons`, or `kept`. -/
inductive Verdict where
  | empty
  | short
  | braces
  | kept
deriving DecidableEq, Repr

/-- `abs(completion.count("{") - completion.count("}"))` of the filter. -/
def braceDelta (c : String) : Nat :=
  ((c.toList.count '\x7b' : Int) - (c.toList.count '\x7d' : Int)).natAbs

/-- The first pass of `_filter_bad_samples` on one record: strip the completion
(`sample.get("completion", "").strip()`), then test the rejection predicates in
source order — empty, then length `< 10`, then brace difference `> 3` — and
short-circuit on the first that matches. -/
def sampleVerdict (completion : Option String) : Verdict :=
  let c := pyStrip (completion.getD "")
  if c = "" then .empty
  else if c.length < 10 then .short
  else if 3 < braceDelta c then .braces
  else .kept

/-- Verdict of a whole sample record. -/
def verdictOf (s : Sample) : Verdict := sampleVerdict s.completion

/-- Whether the record survives all three rejection predicates. -/
def isKept (s : Sample) : Bool := verdictOf s == Verdict.kept

/-- `problem_samples[t]["all"]`: the samples of task `t` in arrival order. -/
def groupFor (samples : List Sample) (t : String) : List Sample :=
  samples.filter (fun s => s.task_id == t)

/-- `problem_samples[t]["kept"]`: the surviving samples of task `t`, in
arrival order. -/
def keptFor (samples : List Sample) (t : String) : List Sample :=
  (groupFor samples t).filter isKept

/-- What the second pass writes for task `t`: all kept samples, or — when all
of the task's samples were rejected — the first raw sample (`all_samples[0]`,
the coverage-preservation fallback). -/
def emitFor (samples : List Sample) (t : String) : List Sample :=
  if keptFor samples t = [] then (groupFor samples t).take 1
  else keptFor samples t

/-- Python string comparison `a <= b` on char lists: lexicographic by code
point, a proper prefix ordered first. -/
def charListLe : List Char → List Char → Bool
  | [], _ => true
  | _ :: _, [] => false
  | a :: as, b :: bs =>
    if a.toNat < b.toNat then true
    else if b.toNat < a.toNat then false
    else charListLe as bs

/-- Python `a <= b` on strings. -/
def strLe (a b : String) : Bool := charListLe a.data b.data

/-- Insert a task id into an already sorted list of task ids. -/
def insertSorted (x : String) : List String → List String
  | [] => [x]
  | y :: ys => if strLe x y then x :: y :: ys else y :: insertSorted x ys

/-- Insertion sort over task ids, modelling Python `sorted` on strings. -/
def sortKeys : List String → List String
  | [] => []
  | x :: xs => insertSorted x (sortKeys xs)

/-- `sorted(problem_samples.keys())`: the distinct task ids of the input, in
Python's sorted order. -/
def taskKeys (samples : List Sample) : List String :=
  sortKeys ((samples.map (fun s => s.task_id)).dedup)

/-- Concatenate the per-task blocks of the second pass. -/
def flattenMap (f : String → List Sample) : List String → List Sample
  | [] => []
  | t :: ts => f t ++ flattenMap f ts

/-- The content of the `.filtered` file written by the second pass: one block
per task id in sorted order. -/
def writtenOutput (samples : List Sample) : List Sample :=
  flattenMap (emitFor samples) (taskKeys samples)

/-- `filtered_count`: how many records some rejection predicate removed. -/
def filteredCount (samples : List Sample) : Nat :=
  (samples.filter (fun s => !isKept s)).length

/-- `_filter_bad_samples` as the content of the file whose path the function
returns: the freshly written filtered file when anything was rejected
(`return filtered_file if filtered_count > 0 else sample_file`), otherwise the
original input file, unchanged. -/
def _filter_bad_samples (samples : List Sample) : List Sample :=
  if 0 < filteredCount samples then writtenOutput samples else samples

/-- Whether `pat` stands at the beginning of `hay`. -/
def charsAtStart : List Char → List Char → Bool
  | [], _ => true
  | _ :: _, [] => false
  | a :: as, b :: bs => a == b && charsAtStart as bs

/-- Whether `pat` occurs somewhere in `hay` (Python `pat in hay`). -/
def charsInside (pat : List Char) : List Char → Bool
  | [] => pat.isEmpty
  | c :: rest => charsAtStart pat (c :: rest) || charsInside pat rest

/-- Python substring test `pat in s`. -/
def strContains (s pat : String) : Bool := charsInside pat.data s.data

/-- Python `str.lower()`, for the ASCII letters the sandbox modes use. -/
def pyLower (s : String) : String := ⟨s.data.map Char.toLower⟩

/-- The two exception classes `_resolve_sandbox_mode` can raise: `ValueError`
for an invalid mode string, `RuntimeError` for Firejail requested but not
installed. -/
inductive ResolveErr where
  | valueError (msg : String)
  | runtimeError (msg : String)
deriving DecidableEq, Repr

/-- The `ValueError` message, naming the invalid value and the three choices. -/
def invalidModeMsg (requested : String) : String :=
  "Invalid sandbox mode '" ++ requested ++ "'. Choose 'firejail', 'none', or 'auto'."

/-- The auto-detect branch of `_resolve_sandbox_mode`: prefer Firejail when the
host has it, else fall back to `none` with a warning. `present` stands for
`shutil.which("firejail")` being non-null. -/
def resolveAuto (present : Bool) : Except ResolveErr (String × List String) :=
  if present then
    .ok ("firejail", ["Auto-detected Firejail; enabling sandboxed evaluation."])
  else
    .ok ("none", ["WARNING: Firejail not found; proceeding without sandbox protection (mode: none)."])

/-- `_resolve_sandbox_mode`: `normalized = requested.lower() if requested else
None` treats an unset mode — and, by Python truthiness, the empty string — as
`None`; `auto` is then also turned into `None`. Anything else outside
`firejail`/`none` raises a `ValueError`; `firejail` requires the tool (else
`RuntimeError`); `none` always warns; `None` auto-detects. -/
def _resolve_sandbox_mode (requested : Option String) (present : Bool) :
    Except ResolveErr (String × List String) :=
  match requested with
  | none => resolveAuto present
  | some s =>
    if s = "" then resolveAuto present
    else
    let n := pyLower s
    if n = "auto" then resolveAuto present
    else if n = "firejail" then
      if present then .ok ("firejail", ["Using sandbox mode: firejail"])
      else .error (.runtimeError
        "Firejail requested but not available. Install Firejail or use --sandbox-mode none.")
    else if n = "none" then
      .ok ("none", ["WARNING: Running without a sandbox executes arbitrary code on the host."])
    else .error (.valueError (invalidModeMsg s))

/-- A metrics dict returned by the evaluation engine, abstracted to its keys
(`pass@k` names); only its truthiness and presence drive the orchestrator. -/
abbrev Metrics := List String

/-- The dict `run_evaluation_mode` returns: `{"base": ..., "finetuned": ...,
"config": ...}`. A slot is `none` when that model was skipped. The `config`
entry is always present, so the dict as a whole is always truthy. -/
structure PhaseResult where
  base : Option Metrics
  finetuned : Option Metrics
deriving DecidableEq, Repr

/-- Exceptions the orchestrator model can leave uncaught. -/
inductive PyErr where
  | typeError
  | engineFault (msg : String)
deriving DecidableEq, Repr

/-- `all_results["no-policy"]["base"]` as evaluated by Python: subscripting
`None` raises `TypeError`; subscripting the phase dict yields its slot. -/
def subBase : Option PhaseResult → Except PyErr (Option Metrics)
  | none => .error .typeError
  | some r => .ok r.base

/-- `all_results[...]["finetuned"]`, likewise. -/
def subFinetuned : Option PhaseResult → Except PyErr (Option Metrics)
  | none => .error .typeError
  | some r => .ok r.finetuned

/-- The combined-summary block of `main` (the `with summary_file.open(...)`
body), modelled for its raise behaviour. The code runs it when at least one
slot is truthy; inside, `if all_results["no-policy"]:` guards only a heading
write, while the sibling `if all_results["no-policy"]["base"]:` and the three
tests after it subscript both slots unconditionally. -/
def writeCombinedSummary (np pol : Option PhaseResult) : Except PyErr Unit :=
  if np.isSome || pol.isSome then do
    _ ← subBase np
    _ ← subFinetuned np
    _ ← subBase pol
    _ ← subFinetuned pol
    pure ()
  else pure ()

/-- The command-line switches of `main` that the modelled control flow reads. -/
structure MainConfig where
  policyOnly : Bool
  noPolicyOnly : Bool
  skipBase : Bool
  skipFinetuned : Bool
  sandboxMode : Option String
deriving Repr

/-- `run_evaluation_mode` for one phase: evaluate the base model unless
skipped, then the fine-tuned model unless skipped; an engine fault in either
evaluation propagates out uncaught (there is no try/except around these
calls). `evalBase`/`evalFt` are the engine's outcomes for the two models. -/
def run_evaluation_mode (skipBase skipFinetuned : Bool)
    (evalBase evalFt : Except String Metrics) : Except String PhaseResult :=
  match (if skipBase then .ok none else evalBase.map some :
      Except String (Option Metrics)) with
  | .error e => .error e
  | .ok b =>
    match (if skipFinetuned then .ok none else evalFt.map some :
        Except String (Option Metrics)) with
    | .error e => .error e
    | .ok f => .ok ⟨b, f⟩

/-- How a run of `main` ends: a `sys.exit`, an uncaught exception, or normal
completion with the two recorded phase slots. -/
inductive MainOutcome where
  | exited (code : Nat)
  | raised (e : PyErr)
  | completed (np pol : Option PhaseResult)
deriving DecidableEq, Repr

/-- Outcome of `main` plus the trace of phases whose evaluation work started
(`false` = the no-policy phase, `true` = the policy phase), in order. -/
structure MainResult where
  outcome : MainOutcome
  phasesStarted : List Bool
deriving DecidableEq, Repr

/-- The orchestrator `main` from the sandbox-mode resolution onward: resolve
the mode (a `ValueError`/`RuntimeError` is caught and turned into
`sys.exit(1)` before any phase runs), exit 0 when both phases are disabled,
run the no-policy phase then the policy phase with no try/except around
either, and finally write the combined summary. `oracle enforce finetuned`
is the evaluation engine's outcome for that slot. -/
def mainModel (cfg : MainConfig) (present : Bool)
    (oracle : Bool → Bool → Except String Metrics) : MainResult :=
  match _resolve_sandbox_mode cfg.sandboxMode present with
  | .error _ => ⟨.exited 1, []⟩
  | .ok _ =>
    let runNo := !cfg.policyOnly
    let runPol := !cfg.noPolicyOnly
    if !runNo && !runPol then ⟨.exited 0, []⟩
    else
      match (if runNo then
          Except.map some (run_evaluation_mode cfg.skipBase cfg.skipFinetuned
            (oracle false false) (oracle false true))
        else .ok none : Except String (Option PhaseResult)) with
      | .error e => ⟨.raised (.engineFault e), [false]⟩
      | .ok np =>
        let s1 : List Bool := if runNo then [false] else []
        match (if runPol then
            Except.map some (run_evaluation_mode cfg.skipBase cfg.skipFinetuned
              (oracle true false) (oracle true true))
          else .ok none : Except String (Option PhaseResult)) with
        | .error e => ⟨.raised (.engineFault e), s1 ++ [true]⟩
        | .ok pol =>
          let s2 := s1 ++ (if runPol then [true] else [])
          match writeCombinedSummary np pol with
          | .error e => ⟨.raised e, s2⟩
          | .ok _ => ⟨.completed np pol, s2⟩

end HumanEvalPipeline

namespace EcosystemValidator

/-- Python `int(component)` on a version component: optional surrounding
whitespace, an optional sign, then at least one decimal digit; anything else
raises `ValueError`, modelled as `none`. -/
def digitsToNat : List Char → Option Nat
  | [] => none
  | cs => cs.foldl (fun acc c =>
      match acc with
      | none => none
      | some n => if c.isDigit then some (n * 10 + (c.toNat - '0'.toNat)) else none)
      (some 0)

/-- Python `int(s)` for plain decimal literals. -/
def pyInt (s : String) : Option Int :=
  let t := (s.data.dropWhile Char.isWhitespace).reverse.dropWhile Char.isWhitespace |>.reverse
  match t with
  | '+' :: rest => (digitsToNat rest).map Int.ofNat
  | '-' :: rest => (digitsToNat rest).map (fun n => -(n : Int))
  | l => (digitsToNat l).map Int.ofNat

/-- Python `v.split(".")`. -/
def splitDots : List Char → List (List Char)
  | [] => [[]]
  | c :: rest =>
    if c = '.' then [] :: splitDots rest
    else
      match splitDots rest with
      | [] => [[c]]
      | p :: ps => (c :: p) :: ps

/-- The dot-separated components of a version string, as strings. -/
def versionParts (v : String) : List String :=
  (splitDots v.data).map (fun l => ⟨l⟩)

/-- `tuple(int(x) for x in v.split(".")[:3])`: the generator evaluates the
components left to right and the first failing `int()` raises. -/
def parseParts : List String → Option (List Int)
  | [] => some []
  | p :: ps =>
    match pyInt p, parseParts ps with
    | some n, some ns => some (n :: ns)
    | _, _ => none

/-- `parse_version` of `validate_ecosystem.py`. -/
def parse_version (v : String) : Option (List Int) :=
  parseParts ((versionParts v).take 3)

/-- Python `<` on int tuples: lexicographic, a proper prefix ordered first. -/
def tupLt : List Int → List Int → Bool
  | [], [] => false
  | [], _ :: _ => true
  | _ :: _, [] => false
  | a :: as, b :: bs => if a < b then true else if b < a then false else tupLt as bs

/-- Python `>=` on int tuples, as `not (<)`. -/
def tupGe (a b : List Int) : Bool := !tupLt a b

/-- `check_version`: the tuple comparison, with the `ValueError` from a
non-numeric component caught and turned into `False`. -/
def check_version (installed required : String) : Bool :=
  match parse_version installed, parse_version required with
  | some a, some b => tupGe a b
  | _, _ => false

/-- The host environment the validator probes: what `importlib.metadata.version`
returns per package (`none` when it raises) and whether `import_module`
succeeds per module name. -/
structure PkgEnv where
  installedVersion : String → Option String
  importOk : String → Bool

/-- The two fields of a `validate_package` result record that `print_results`
reads to decide a package's status. -/
structure PkgResult where
  version_ok : Bool
  import_success : Bool

/-- `REQUIREMENTS`: minimum versions per package. -/
def REQUIREMENTS : List (String × String) :=
  [("human-eval-rust", "2.1.0"), ("sigil-pipeline", "2.2.0"), ("sigilderg-finetuner", "2.9.0")]

/-- `MODULE_NAMES`: import names per package. -/
def MODULE_NAMES : List (String × String) :=
  [("human-eval-rust", "human_eval"), ("sigil-pipeline", "sigil_pipeline"),
   ("sigilderg-finetuner", "rust_qlora")]

/-- `MODULE_NAMES.get(pkg_name, pkg_name.replace("-", "_"))`. -/
def moduleFor (pkg : String) : String :=
  match MODULE_NAMES.lookup pkg with
  | some m => m
  | none => ⟨pkg.data.map (fun c => if c = '-' then '_' else c)⟩

/-- `validate_package`: not installed means both checks fail (the early
return); otherwise the version check and the import attempt. -/
def validate_package (env : PkgEnv) (pkg minVersion moduleName : String) : PkgResult :=
  match env.installedVersion pkg with
  | none => ⟨false, false⟩
  | some inst => ⟨check_version inst minVersion, env.importOk moduleName⟩

/-- `validate_all`: one result per requirement, in order. -/
def validate_all (env : PkgEnv) : List PkgResult :=
  REQUIREMENTS.map (fun pv => validate_package env pv.1 pv.2 (moduleFor pv.1))

/-- The `all_ok` flag `print_results` computes: a package passes when both
`version_ok` and `import_success` hold. -/
def allOk (results : List PkgResult) : Bool :=
  results.all (fun r => r.version_ok && r.import_success)

/-- `main` of `validate_ecosystem.py`: exit status 0 on full success, else 1. -/
def mainExit (env : PkgEnv) : Nat :=
  if allOk (validate_all env) then 0 else 1

end EcosystemValidator

namespace HumanEvalPipeline

lemma mem_groupFor {samples : List Sample} {x : Sample} {t : String} :
    x ∈ groupFor samples t ↔ x ∈ samples ∧ x.task_id = t := by
  simp [groupFor, List.mem_filter]

lemma mem_keptFor {samples : List Sample} {x : Sample} {t : String} :
    x ∈ keptFor samples t ↔ (x ∈ samples ∧ x.task_id = t) ∧ isKept x = true := by
  simp [keptFor, List.mem_filter, mem_groupFor]

lemma mem_emitFor {samples : List Sample} {x : Sample} {t : String}
    (h : x ∈ emitFor samples t) : x ∈ samples ∧ x.task_id = t := by
  unfold emitFor at h
  split at h
  · exact mem_groupFor.mp (List.mem_of_mem_take h)
  · exact (mem_keptFor.mp h).1

lemma emitFor_ne_nil {samples : List Sample} {t : String}
    (h : groupFor samples t ≠ []) : emitFor samples t ≠ [] := by
  unfold emitFor
  split
  · cases hg : groupFor samples t with
    | nil => exact absurd hg h
    | cons a l => simp [hg]
  · assumption

lemma mem_flattenMap {f : String → List Sample} {keys : List String} {x : Sample} :
    x ∈ flattenMap f keys ↔ ∃ t ∈ keys, x ∈ f t := by
  induction keys with
  | nil => simp [flattenMap]
  | cons u us ih => simp [flattenMap, ih, List.mem_append]

lemma mem_insertSorted {x a : String} {l : List String} :
    a ∈ insertSorted x l ↔ a = x ∨ a ∈ l := by
  induction l with
  | nil => simp [insertSorted]
  | cons y ys ih =>
    unfold insertSorted
    split
    · simp
    · simp [ih]
      tauto

lemma mem_sortKeys {a : String} {l : List String} : a ∈ sortKeys l ↔ a ∈ l := by
  induction l with
  | nil => simp [sortKeys]
  | cons x xs ih => simp [sortKeys, mem_insertSorted, ih]

lemma mem_taskKeys {samples : List Sample} {t : String} :
    t ∈ taskKeys samples ↔ ∃ s ∈ samples, s.task_id = t := by
  simp [taskKeys, mem_sortKeys, List.mem_dedup]

lemma perm_insertSorted (x : String) (l : List String) :
    List.Perm (insertSorted x l) (x :: l) := by
  induction l with
  | nil => simp [insertSorted]
  | cons y ys ih =>
    unfold insertSorted
    split
    · exact List.Perm.refl _
    · exact ((ih.cons y).trans (List.Perm.swap x y ys))

lemma perm_sortKeys (l : List String) : List.Perm (sortKeys l) l := by
  induction l with
  | nil => rfl
  | cons x xs ih => exact (perm_insertSorted x (sortKeys xs)).trans (ih.cons x)

lemma nodup_taskKeys (samples : List Sample) : (taskKeys samples).Nodup :=
  ((perm_sortKeys _).nodup_iff).mpr (List.nodup_dedup _)

lemma charListLe_refl : ∀ l : List Char, charListLe l l = true := by
  intro l
  induction l with
  | nil => rfl
  | cons x xs ih => simp [charListLe, ih]

lemma strLe_refl (a : String) : strLe a a = true := charListLe_refl a.data

lemma charListLe_total : ∀ a b : List Char, charListLe a b = false → charListLe b a = true := by
  intro a
  induction a with
  | nil => intro b h; simp [charListLe] at h
  | cons x xs ih =>
    intro b h
    cases b with
    | nil => rfl
    | cons y ys =>
      simp only [charListLe] at h ⊢
      split_ifs at h ⊢ <;> first | rfl | omega | exact ih ys h

lemma strLe_total {a b : String} (h : strLe a b = false) : strLe b a = true :=
  charListLe_total a.data b.data h

lemma charListLe_trans :
    ∀ a b c : List Char, charListLe a b = true → charListLe b c = true →
      charListLe a c = true := by
  intro a
  induction a with
  | nil => intro b c _ _; rfl
  | cons x xs ih =>
    intro b c h1 h2
    cases b with
    | nil => simp [charListLe] at h1
    | cons y ys =>
      cases c with
      | nil => simp [charListLe] at h2
      | cons z zs =>
        simp only [charListLe] at h1 h2 ⊢
        split_ifs at h1 h2 ⊢ <;> first | rfl | omega | exact ih ys zs h1 h2

lemma strLe_trans {a b c : String} (h1 : strLe a b = true) (h2 : strLe b c = true) :
    strLe a c = true :=
  charListLe_trans a.data b.data c.data h1 h2

lemma pairwise_insertSorted {x : String} {l : List String}
    (h : l.Pairwise (fun a b => strLe a b = true)) :
    (insertSorted x l).Pairwise (fun a b => strLe a b = true) := by
  induction l with
  | nil => simp [insertSorted]
  | cons y ys ih =>
    unfold insertSorted
    obtain ⟨hy, hys⟩ := List.pairwise_cons.mp h
    by_cases hxy : strLe x y = true
    · simp only [hxy, if_true]
      refine List.pairwise_cons.mpr ⟨?_, h⟩
      intro b hb
      rcases List.mem_cons.mp hb with rfl | hb
      · exact hxy
      · exact strLe_trans hxy (hy b hb)
    · simp only [hxy, if_false]
      refine List.pairwise_cons.mpr ⟨?_, ih hys⟩
      intro b hb
      rcases mem_insertSorted.mp hb with rfl | hb
      · exact strLe_total (Bool.eq_false_iff.mpr hxy ▸ rfl)
      · exact hy b hb

lemma sorted_sortKeys (l : List String) :
    (sortKeys l).Pairwise (fun a b => strLe a b = true) := by
  induction l with
  | nil => simp [sortKeys]
  | cons x xs ih => exact pairwise_insertSorted ih

lemma sorted_taskKeys (samples : List Sample) :
    (taskKeys samples).Pairwise (fun a b => strLe a b = true) :=
  sorted_sortKeys _

lemma pairwise_of_const (t : String) {l : List String} (h : ∀ a ∈ l, a = t) :
    l.Pairwise (fun a b => strLe a b = true) := by
  induction l with
  | nil => simp
  | cons x xs ih =>
    refine List.pairwise_cons.mpr ⟨?_, ih (fun a ha => h a (List.mem_cons_of_mem x ha))⟩
    intro b hb
    rw [h x (List.mem_cons_self x xs), h b (List.mem_cons_of_mem x hb)]
    exact strLe_refl t

lemma pairwise_map_flattenMap {f : String → List Sample} {keys : List String}
    (hs : keys.Pairwise (fun a b => strLe a b = true))
    (hf : ∀ t, ∀ x ∈ f t, Sample.task_id x = t) :
    ((flattenMap f keys).map (fun s => s.task_id)).Pairwise
      (fun a b => strLe a b = true) := by
  induction keys with
  | nil => simp [flattenMap]
  | cons u us ih =>
    obtain ⟨hu, hus⟩ := List.pairwise_cons.mp hs
    rw [flattenMap, List.map_append, List.pairwise_append]
    refine ⟨pairwise_of_const u ?_, ih hus, ?_⟩
    · intro a ha
      obtain ⟨x, hx, rfl⟩ := List.mem_map.mp ha
      exact hf u x hx
    · intro a ha b hb
      obtain ⟨x, hx, rfl⟩ := List.mem_map.mp ha
      obtain ⟨y, hy, rfl⟩ := List.mem_map.mp hb
      obtain ⟨v, hv, hyv⟩ := mem_flattenMap.mp hy
      rw [hf u x hx, hf v y hyv]
      exact hu v hv

lemma filter_flattenMap {f : String → List Sample} {keys : List String} (t : String)
    (hnd : keys.Nodup)
    (hf : ∀ u, ∀ x ∈ f u, Sample.task_id x = u) :
    (flattenMap f keys).filter (fun s => s.task_id == t) =
      if t ∈ keys then f t else [] := by
  induction keys with
  | nil => simp [flattenMap]
  | cons u us ih =>
    obtain ⟨hu, hus⟩ := List.nodup_cons.mp hnd
    rw [flattenMap, List.filter_append, ih hus]
    by_cases hut : u = t
    · subst hut
      have h1 : (f u).filter (fun s => s.task_id == u) = f u := by
        rw [List.filter_eq_self]
        intro a ha
        simp [hf u a ha]
      simp [h1, hu]
    · have h1 : (f u).filter (fun s => s.task_id == t) = [] := by
        rw [List.filter_eq_nil_iff]
        intro a ha
        simp [hf u a ha, hut]
      by_cases hts : t ∈ us
      · simp [h1, hts, List.mem_cons]
      · have hnotin : t ∉ u :: us := by
          intro hmem
          rcases List.mem_cons.mp hmem with h | h
          · exact hut h.symm
          · exact hts h
        simp [h1, hts, hnotin]

/-- C1: for every nonempty input, the filtered output covers exactly the task
ids of the raw input — every task with a raw sample keeps at least one sample
(the first raw one serving as fallback when all were rejected), and no new
task appears. -/
theorem filter_task_coverage (samples : List Sample) (hne : samples ≠ []) (t : String) :
    (∃ s ∈ _filter_bad_samples samples, s.task_id = t) ↔
      (∃ s ∈ samples, s.task_id = t) := by
  unfold _filter_bad_samples
  split
  · constructor
    · rintro ⟨x, hx, rfl⟩
      obtain ⟨u, _, hxu⟩ := mem_flattenMap.mp hx
      exact ⟨x, (mem_emitFor hxu).1, rfl⟩
    · rintro ⟨x, hx, rfl⟩
      have ht : x.task_id ∈ taskKeys samples := mem_taskKeys.mpr ⟨x, hx, rfl⟩
      have hg : groupFor samples x.task_id ≠ [] := by
        intro hnil
        have hmem := mem_groupFor.mpr ⟨hx, rfl⟩
        rw [hnil] at hmem
        exact absurd hmem (List.not_mem_nil x)
      obtain ⟨y, hy⟩ := List.exists_mem_of_ne_nil _ (emitFor_ne_nil hg)
      exact ⟨y, mem_flattenMap.mpr ⟨x.task_id, ht, hy⟩, (mem_emitFor hy).2⟩
  · exact Iff.rfl

/-- Witness for C1 at a concrete one-sample input. -/
theorem filter_task_coverage_witness :
    ([(⟨"t1", some ""⟩ : Sample)] ≠ []) ∧
      ((∃ s ∈ _filter_bad_samples [(⟨"t1", some ""⟩ : Sample)], s.task_id = "t1") ↔
        (∃ s ∈ [(⟨"t1", some ""⟩ : Sample)], s.task_id = "t1")) :=
  ⟨by decide, filter_task_coverage [⟨"t1", some ""⟩] (by decide) "t1"⟩

/-- C4 counterexample: when no sample is rejected the function returns the raw
input file, so the output need not list tasks in sorted order — here the two
kept samples stay in arrival order t2, t1. -/
theorem filter_unsorted_cex :
    (_filter_bad_samples
        [⟨"t2", some "0123456789"⟩, ⟨"t1", some "0123456789"⟩]).map
        (fun s => s.task_id) = ["t2", "t1"] ∧
      ¬ (["t2", "t1"].Pairwise (fun a b => strLe a b = true)) := by
  constructor
  · decide
  · intro h
    exact absurd ((List.pairwise_cons.mp h).1 "t1" (by decide)) (by decide)

/-- C4 amended: when at least one sample is rejected, the returned output is
the rewritten file — task blocks in sorted task_id order, each block listing
that task's emitted samples as a subsequence of its arrival-order group; when
nothing is rejected, the input is returned unchanged. The output is in either
case a function of the input alone (deterministic). -/
theorem filter_output_order (samples : List Sample) :
    (filteredCount samples = 0 ∧ _filter_bad_samples samples = samples) ∨
      (0 < filteredCount samples ∧
        _filter_bad_samples samples = writtenOutput samples ∧
        ((writtenOutput samples).map (fun s => s.task_id)).Pairwise
          (fun a b => strLe a b = true) ∧
        ∀ t, (writtenOutput samples).filter (fun s => s.task_id == t) =
            emitFor samples t ∧
          (emitFor samples t).Sublist (groupFor samples t)) := by
  by_cases h : 0 < filteredCount samples
  · right
    refine ⟨h, by simp [_filter_bad_samples, h], ?_, ?_⟩
    · exact pairwise_map_flattenMap (sorted_taskKeys samples)
        (fun u x hx => (mem_emitFor hx).2)
    · intro t
      constructor
      · rw [writtenOutput, filter_flattenMap t (nodup_taskKeys samples)
          (fun u x hx => (mem_emitFor hx).2)]
        by_cases ht : t ∈ taskKeys samples
        · simp [ht]
        · have hg : groupFor samples t = [] := by
            rw [groupFor, List.filter_eq_nil_iff]
            intro x hx
            intro hbeq
            exact ht (mem_taskKeys.mpr ⟨x, hx, by simpa using hbeq⟩)
          have he : emitFor samples t = [] := by
            unfold emitFor keptFor
            rw [hg]
            simp
          simp [ht, he]
      · unfold emitFor
        split
        · exact List.take_sublist 1 _
        · exact List.filter_sublist _
  · left
    have h0 : filteredCount samples = 0 := Nat.eq_zero_of_not_pos h
    exact ⟨h0, by simp [_filter_bad_samples, h0]⟩

/-- C5 counterexample: a trimmed completion of exactly length 10 is not always
kept — ten open braces have length 10 but brace difference 10, so the filter
rejects the sample as a brace mismatch. -/
theorem length_ten_not_kept_cex :
    sampleVerdict (some "\x7b\x7b\x7b\x7b\x7b\x7b\x7b\x7b\x7b\x7b") = Verdict.braces ∧
      (pyStrip "\x7b\x7b\x7b\x7b\x7b\x7b\x7b\x7b\x7b\x7b").length = 10 ∧
      sampleVerdict (some "\x7b\x7b\x7b\x7b\x7b\x7b\x7b\x7b\x7b\x7b") ≠ Verdict.kept := by
  refine ⟨by decide, by decide, by decide⟩

/-- C5 amended: the verdict of a completion is characterised by — `empty` iff
the trimmed text is empty; `short` iff it is nonempty of trimmed length `< 10`;
`braces` iff trimmed length is `≥ 10` and the brace-count difference exceeds 3;
`kept` iff trimmed length is `≥ 10` and the difference is at most 3. The
predicates apply in the order empty, too-short, brace-imbalance with
short-circuit, so every sample receives exactly one verdict; in particular
trimmed length exactly 10 with difference `≤ 3` is kept, difference exactly 3
with length `≥ 10` is kept, and difference `≥ 4` with length `≥ 10` is a brace
mismatch. -/
theorem verdict_characterization (c : String) :
    (sampleVerdict (some c) = Verdict.empty ↔ pyStrip c = "") ∧
      (sampleVerdict (some c) = Verdict.short ↔
        (pyStrip c ≠ "" ∧ (pyStrip c).length < 10)) ∧
      (sampleVerdict (some c) = Verdict.braces ↔
        (10 ≤ (pyStrip c).length ∧ 3 < braceDelta (pyStrip c))) ∧
      (sampleVerdict (some c) = Verdict.kept ↔
        (10 ≤ (pyStrip c).length ∧ braceDelta (pyStrip c) ≤ 3)) := by
  have hlen : (pyStrip c = "") → (pyStrip c).length = 0 := fun h => by rw [h]; rfl
  unfold sampleVerdict
  simp only [Option.getD_some]
  split_ifs with h1 h2 h3 <;>
    refine ⟨?_, ?_, ?_, ?_⟩ <;>
      simp_all

/-- C8: filtering a set in which every sample passes all rejection predicates
returns the input unchanged. -/
theorem filter_identity_on_clean (samples : List Sample)
    (h : ∀ s ∈ samples, verdictOf s = Verdict.kept) :
    _filter_bad_samples samples = samples := by
  have hc : filteredCount samples = 0 := by
    unfold filteredCount
    have hnil : samples.filter (fun s => !isKept s) = [] := by
      rw [List.filter_eq_nil_iff]
      intro a ha
      simp [isKept, h a ha]
    rw [hnil]
    rfl
  simp [_filter_bad_samples, hc]

/-- Witness for C8 at a concrete clean sample set. -/
theorem filter_identity_on_clean_witness :
    _filter_bad_samples [(⟨"t1", some "0123456789"⟩ : Sample)] =
      [(⟨"t1", some "0123456789"⟩ : Sample)] :=
  filter_identity_on_clean _ (by decide)

/-- C9: a record with no completion field is handled without an exception —
its verdict is `empty` (the `.get` default makes it an empty completion), and
when it is a task's first raw sample and none of the task's samples survive,
it is still emitted as the coverage fallback. -/
theorem missing_completion_safe (s : Sample) (rest : List Sample)
    (hc : s.completion = none)
    (hall : ∀ x ∈ s :: rest, x.task_id = s.task_id → verdictOf x ≠ Verdict.kept) :
    verdictOf s = Verdict.empty ∧ s ∈ _filter_bad_samples (s :: rest) := by
  have hv : verdictOf s = Verdict.empty := by
    unfold verdictOf
    rw [hc]
    decide
  refine ⟨hv, ?_⟩
  have hns : isKept s = false := by simp [isKept, hv]
  have hcount : 0 < filteredCount (s :: rest) := by
    unfold filteredCount
    rw [List.filter_cons_of_pos (by simp [hns])]
    exact Nat.succ_pos _
  have hkept : keptFor (s :: rest) s.task_id = [] := by
    rw [List.eq_nil_iff_forall_not_mem]
    intro x hx
    obtain ⟨⟨hxs, hxt⟩, hxk⟩ := mem_keptFor.mp hx
    exact hall x hxs hxt (by simpa [isKept] using hxk)
  have hemit : s ∈ emitFor (s :: rest) s.task_id := by
    unfold emitFor
    rw [hkept]
    simp only [if_true, reduceIte]
    rw [groupFor, List.filter_cons_of_pos (by simp)]
    simp
  rw [_filter_bad_samples, if_pos hcount]
  exact mem_flattenMap.mpr
    ⟨s.task_id, mem_taskKeys.mpr ⟨s, List.mem_cons_self s rest, rfl⟩, hemit⟩

/-- Witness for C9 at a concrete record lacking the completion field. -/
theorem missing_completion_safe_witness :
    verdictOf ⟨"t1", none⟩ = Verdict.empty ∧
      (⟨"t1", none⟩ : Sample) ∈ _filter_bad_samples [⟨"t1", none⟩] :=
  missing_completion_safe ⟨"t1", none⟩ [] rfl (by decide)

lemma charsAtStart_self_append (l r : List Char) : charsAtStart l (l ++ r) = true := by
  induction l with
  | nil => rfl
  | cons a as ih => simp [charsAtStart, ih]

lemma charsInside_nil (hay : List Char) : charsInside [] hay = true := by
  cases hay <;> simp [charsInside, charsAtStart, List.isEmpty]

lemma charsInside_self_append (pat rest : List Char) :
    charsInside pat (pat ++ rest) = true := by
  cases pat with
  | nil => exact charsInside_nil rest
  | cons p ps =>
    simp [charsInside, charsAtStart, charsAtStart_self_append ps rest]

lemma charsInside_append_of {pat hay : List Char} (a : List Char)
    (h : charsInside pat hay = true) : charsInside pat (a ++ hay) = true := by
  induction a with
  | nil => exact h
  | cons c a' ih => simp [charsInside, ih]

lemma strData_append (a b : String) : (a ++ b).data = a.data ++ b.data := by
  cases a
  cases b
  rfl

lemma strContains_invalidModeMsg_self (s : String) :
    strContains (invalidModeMsg s) s = true := by
  unfold strContains invalidModeMsg
  rw [strData_append, strData_append, List.append_assoc]
  exact charsInside_append_of _ (charsInside_self_append _ _)

lemma strContains_invalidModeMsg_choice {c : String} (s : String)
    (hc : charsInside c.data ("'. Choose 'firejail', 'none', or 'auto'.").data = true) :
    strContains (invalidModeMsg s) c = true := by
  unfold strContains invalidModeMsg
  rw [strData_append, strData_append]
  have h2 : charsInside c.data
      (s.data ++ ("'. Choose 'firejail', 'none', or 'auto'.").data) = true :=
    charsInside_append_of s.data hc
  exact charsInside_append_of ("Invalid sandbox mode '").data h2

lemma resolver_invalid (s : String) (present : Bool) (h0 : s ≠ "")
    (h1 : pyLower s ≠ "firejail") (h2 : pyLower s ≠ "none") (h3 : pyLower s ≠ "auto") :
    _resolve_sandbox_mode (some s) present =
      .error (.valueError (invalidModeMsg s)) := by
  unfold _resolve_sandbox_mode
  simp [h0, h1, h2, h3]

/-- C6: a requested sandbox mode outside firejail/none/auto (after
lower-casing) — and nonempty, since Python truthiness treats the empty string
as unset — makes the resolver raise a `ValueError` whose message names the
invalid value and the three legal choices, and `main` catches it and exits
with status 1 before any phase's generation or evaluation work starts (the
trace of started phases is empty). -/
theorem invalid_mode_rejected (s : String) (present : Bool) (h0 : s ≠ "")
    (h1 : pyLower s ≠ "firejail") (h2 : pyLower s ≠ "none") (h3 : pyLower s ≠ "auto") :
    (_resolve_sandbox_mode (some s) present =
        .error (.valueError (invalidModeMsg s)) ∧
      strContains (invalidModeMsg s) s = true ∧
      strContains (invalidModeMsg s) "firejail" = true ∧
      strContains (invalidModeMsg s) "none" = true ∧
      strContains (invalidModeMsg s) "auto" = true) ∧
    ∀ (cfg : MainConfig) (oracle : Bool → Bool → Except String Metrics),
      cfg.sandboxMode = some s →
        mainModel cfg present oracle = ⟨.exited 1, []⟩ := by
  refine ⟨⟨resolver_invalid s present h0 h1 h2 h3,
    strContains_invalidModeMsg_self s,
    strContains_invalidModeMsg_choice s (by decide),
    strContains_invalidModeMsg_choice s (by decide),
    strContains_invalidModeMsg_choice s (by decide)⟩, ?_⟩
  intro cfg oracle hs
  unfold mainModel
  rw [hs, resolver_invalid s present h0 h1 h2 h3]

/-- Witness for C6 at the concrete invalid mode string "bogus". -/
theorem invalid_mode_rejected_witness :
    (_resolve_sandbox_mode (some "bogus") true =
        .error (.valueError (invalidModeMsg "bogus")) ∧
      strContains (invalidModeMsg "bogus") "bogus" = true ∧
      strContains (invalidModeMsg "bogus") "firejail" = true ∧
      strContains (invalidModeMsg "bogus") "none" = true ∧
      strContains (invalidModeMsg "bogus") "auto" = true) ∧
    ∀ (cfg : MainConfig) (oracle : Bool → Bool → Except String Metrics),
      cfg.sandboxMode = some "bogus" →
        mainModel cfg true oracle = ⟨.exited 1, []⟩ :=
  invalid_mode_rejected "bogus" true (by decide) (by decide) (by decide) (by decide)

/-- C7: the resolver's case table — auto or unset without the tool resolves to
none with a WARNING message; auto or unset with the tool resolves to firejail
with an informational message; firejail with the tool resolves to firejail;
firejail without the tool raises a `RuntimeError`; none always resolves to
none with a security WARNING, whatever the host state. -/
theorem resolver_cases :
    (_resolve_sandbox_mode (some "auto") false =
        .ok ("none",
          ["WARNING: Firejail not found; proceeding without sandbox protection (mode: none)."]) ∧
      _resolve_sandbox_mode none false =
        .ok ("none",
          ["WARNING: Firejail not found; proceeding without sandbox protection (mode: none)."]) ∧
      strContains
        "WARNING: Firejail not found; proceeding without sandbox protection (mode: none)."
        "WARNING" = true) ∧
    (_resolve_sandbox_mode (some "auto") true =
        .ok ("firejail", ["Auto-detected Firejail; enabling sandboxed evaluation."]) ∧
      _resolve_sandbox_mode none true =
        .ok ("firejail", ["Auto-detected Firejail; enabling sandboxed evaluation."])) ∧
    (_resolve_sandbox_mode (some "firejail") true =
        .ok ("firejail", ["Using sandbox mode: firejail"])) ∧
    (_resolve_sandbox_mode (some "firejail") false =
        .error (.runtimeError
          "Firejail requested but not available. Install Firejail or use --sandbox-mode none.")) ∧
    (_resolve_sandbox_mode (some "none") true =
        .ok ("none",
          ["WARNING: Running without a sandbox executes arbitrary code on the host."]) ∧
      _resolve_sandbox_mode (some "none") false =
        .ok ("none",
          ["WARNING: Running without a sandbox executes arbitrary code on the host."]) ∧
      strContains
        "WARNING: Running without a sandbox executes arbitrary code on the host."
        "WARNING" = true) := by
  refine ⟨⟨by decide, by decide, by decide⟩, ⟨by decide, by decide⟩, by decide,
    by decide, by decide, by decide, by decide⟩

/-- C2 (code bug): the combined-summary writer runs whenever at least one
phase slot is truthy, but then subscripts both slots unconditionally — with
exactly one slot `None` (e.g. a `--policy-only` run) it raises `TypeError`
instead of tolerating the absent result; with both slots `None` it is skipped
and completes. The last conjunct runs the whole orchestrator with the
no-policy phase disabled and a successful policy phase: the run ends in an
uncaught `TypeError`. -/
theorem combined_summary_raises :
    writeCombinedSummary none (some ⟨some ["pass@1"], none⟩) =
        .error .typeError ∧
      writeCombinedSummary (some ⟨some ["pass@1"], none⟩) none =
        .error .typeError ∧
      writeCombinedSummary none none = .ok () ∧
      mainModel ⟨true, false, false, false, some "none"⟩ true
          (fun _ _ => .ok ["pass@1"]) = ⟨.raised .typeError, [true]⟩ := by
  refine ⟨by decide, by decide, by decide, by decide⟩

/-- C3 counterexample: with an engine fault in the no-policy phase the run
ends in an uncaught exception — the policy phase never starts (the trace holds
only the no-policy phase) and no completed result with a `None` slot is
recorded, contradicting the claim that the orchestrator continues. -/
theorem engine_fault_aborts_cex :
    mainModel ⟨false, false, false, true, some "none"⟩ true
        (fun _ _ => .error "fault") =
      ⟨.raised (.engineFault "fault"), [false]⟩ ∧
    true ∉ (mainModel ⟨false, false, false, true, some "none"⟩ true
        (fun _ _ => .error "fault")).phasesStarted ∧
    ∀ (np pol : Option PhaseResult) (ps : List Bool),
      mainModel ⟨false, false, false, true, some "none"⟩ true
        (fun _ _ => .error "fault") ≠ ⟨.completed np pol, ps⟩ := by
  refine ⟨by decide, by decide, ?_⟩
  intro np pol ps h
  rw [show mainModel ⟨false, false, false, true, some "none"⟩ true
      (fun _ _ => .error "fault") =
      ⟨.raised (.engineFault "fault"), [false]⟩ from by decide] at h
  simp at h

/-- C3 amended: when the sandbox mode resolves and the no-policy phase is
enabled, an engine fault in its evaluation propagates uncaught out of the
orchestrator — the run aborts with that exception and the policy phase is
never started; a `None` slot arises only from a configuration skip, not from
a recovered failure. -/
theorem engine_fault_propagates (cfg : MainConfig) (present : Bool)
    (oracle : Bool → Bool → Except String Metrics) (e : String)
    (hok : ∃ v, _resolve_sandbox_mode cfg.sandboxMode present = .ok v)
    (hrun : cfg.policyOnly = false)
    (hfail : run_evaluation_mode cfg.skipBase cfg.skipFinetuned
        (oracle false false) (oracle false true) = .error e) :
    mainModel cfg present oracle = ⟨.raised (.engineFault e), [false]⟩ := by
  obtain ⟨v, hv⟩ := hok
  unfold mainModel
  rw [hv]
  simp [hrun, hfail, Except.map]

/-- Witness for C3's amended theorem at a concrete faulting engine. -/
theorem engine_fault_propagates_witness :
    mainModel ⟨false, false, false, false, some "none"⟩ true
        (fun _ _ => .error "boom") =
      ⟨.raised (.engineFault "boom"), [false]⟩ :=
  engine_fault_propagates ⟨false, false, false, false, some "none"⟩ true
    (fun _ _ => .error "boom") "boom" ⟨_, rfl⟩ rfl rfl

end HumanEvalPipeline

namespace EcosystemValidator

lemma pkg_ok_iff (env : PkgEnv) (pkg minVersion moduleName : String) :
    ((validate_package env pkg minVersion moduleName).version_ok = true ∧
      (validate_package env pkg minVersion moduleName).import_success = true) ↔
    (∃ inst, env.installedVersion pkg = some inst ∧
      check_version inst minVersion = true ∧ env.importOk moduleName = true) := by
  unfold validate_package
  cases h : env.installedVersion pkg <;> simp [h]

lemma parseParts_none {l : List String} {p : String} (hp : p ∈ l)
    (h : pyInt p = none) : parseParts l = none := by
  induction l with
  | nil => cases hp
  | cons q qs ih =>
    rcases List.mem_cons.mp hp with rfl | hp2
    · unfold parseParts
      rw [h]
    · unfold parseParts
      rw [ih hp2]
      cases pyInt q <;> rfl

/-- C10: the validator's `main` returns exit status 0 exactly when every
required package is installed, its version passes `check_version` against the
minimum, and its module imports; and a version string whose first three
dot-separated components contain a non-numeric one makes `check_version`
return `false` (the `ValueError` is caught) instead of raising. -/
theorem validator_exit_iff (env : PkgEnv) :
    (mainExit env = 0 ↔
      ∀ pv ∈ REQUIREMENTS, ∃ inst,
        env.installedVersion pv.1 = some inst ∧
        check_version inst pv.2 = true ∧
        env.importOk (moduleFor pv.1) = true) ∧
    (∀ v r : String, (∃ p ∈ (versionParts v).take 3, pyInt p = none) →
      check_version v r = false) := by
  constructor
  · have h0 : mainExit env = 0 ↔ allOk (validate_all env) = true := by
      unfold mainExit
      split <;> simp_all
    rw [h0]
    unfold allOk validate_all
    rw [List.all_eq_true]
    constructor
    · intro h pv hpv
      have hb := h _ (List.mem_map_of_mem _ hpv)
      rw [Bool.and_eq_true] at hb
      exact (pkg_ok_iff env pv.1 pv.2 (moduleFor pv.1)).mp hb
    · intro h r hr
      obtain ⟨pv, hpv, rfl⟩ := List.mem_map.mp hr
      rw [Bool.and_eq_true]
      exact (pkg_ok_iff env pv.1 pv.2 (moduleFor pv.1)).mpr (h pv hpv)
  · rintro v r ⟨p, hp, hpnone⟩
    unfold check_version
    rw [show parse_version v = none from parseParts_none hp hpnone]

/-- Witness for C10: a non-numeric middle component fails the version check
without raising. -/
theorem validator_exit_iff_witness :
    EcosystemValidator.check_version "1.x.0" "2.1.0" = false :=
  (validator_exit_iff ⟨fun _ => none, fun _ => false⟩).2 "1.x.0" "2.1.0"
    ⟨"x", by decide, by decide⟩

end EcosystemValidator
